import Mathlib

/-!
Verification of the conversation/session state machine of the chat client
(`src/hooks/useChat.ts` together with the record types of `src/types.ts`).

The stateful React hook is embedded shallowly as pure functions over an
explicit state record `FullState`:

* `useState` cells become fields of `FullState` (`messages`, `sessions`,
  `currentSessionId`, `isLoading`); the two `useRef` cells become the
  fields `chatContext` (`chatSessionRef`, modelled as `Option Unit` since
  the claims only care whether it is null) and `abortSignal`
  (`abortControllerRef`, modelled as `Option Bool`: `none` = no controller,
  `some b` = a controller whose signal's aborted flag is `b`).
* `Date.now()` values are passed in explicitly as `Nat` parameters.
* JavaScript strings are Lean `String`s; `slice`/`length` operate on
  UTF-16 code units in JS and on characters here, which agree on the
  BMP text this application manipulates.
* `JSON.parse` of the persisted payload is abstracted by the `StoredData`
  argument of `loadEffect` (`malformed` = the parse/`map` threw).
* The Gemini client is external: the stream is a `List Chunk`, a thrown
  failure is a `JsError` value (with `errString` standing for
  `JSON.stringify(error)`), and the `generateImage` response is an
  `Except JsError (List GenPart)`.
* Effects scheduled by React in one commit are composed sequentially in
  the order the source issues the state updates.
-/

/-- Senders of messages, from `src/types.ts` (`enum Sender`). -/
inductive Sender where
  | user
  | model
deriving DecidableEq

/-- Attachment record, from `src/types.ts`. -/
structure Attachment where
  mimeType : String
  data : String
  fileName : Option String := none
deriving DecidableEq

/-- Message record, from `src/types.ts`.  `timestamp : Nat` stands for the
`Date`; `isError : Option Bool` distinguishes `undefined` from a boolean as
JavaScript `===` does. -/
structure Message where
  id : String
  sender : Sender
  text : String
  timestamp : Nat
  isError : Option Bool := none
  attachment : Option Attachment := none
deriving DecidableEq

/-- ChatSession record, from `src/types.ts` (`updatedAt` is an
epoch-millisecond number). -/
structure ChatSession where
  id : String
  title : String
  messages : List Message
  updatedAt : Nat
deriving DecidableEq

/-- The whole mutable state of the `useChat` hook. -/
structure FullState where
  messages : List Message
  sessions : List ChatSession
  currentSessionId : Option String
  isLoading : Bool
  chatContext : Option Unit
  abortSignal : Option Bool
deriving DecidableEq

/-- JavaScript `s.includes(pat)` (substring containment). -/
def strContains (s pat : String) : Bool :=
  decide (pat.data <:+: s.data)

/-- JavaScript `s.slice(0, n)` on a string. -/
def jsScan (s : String) (n : Nat) : String :=
  String.mk (s.data.take n)

/-- JavaScript `String.prototype.trim`: strips leading and trailing
whitespace. -/
def jsTrim (s : String) : String :=
  String.mk (((s.data.dropWhile Char.isWhitespace).reverse.dropWhile
    Char.isWhitespace).reverse)

/-- JavaScript `Array.prototype.findIndex`: index of the first element
satisfying the predicate. -/
def jsFindIndex (p : α → Bool) : List α → Option Nat
  | [] => none
  | a :: as => if p a then some 0 else (jsFindIndex p as).map (· + 1)

/-- A thrown backend failure.  `errString` stands for
`JSON.stringify(error)`; `name` for `error.name`. -/
structure JsError where
  status : Option Nat := none
  code : Option Nat := none
  errString : String := ""
  name : String := ""
deriving DecidableEq

/-- The designated quota-exhaustion retry-later message
(`useChat.ts:15`). -/
def quotaMsg : String :=
  "Hệ thống đang bận hoặc đã hết hạn mức sử dụng miễn phí (429 Resource Exhausted). Vui lòng thử lại sau ít phút."

/-- The generic apology/retry message (`useChat.ts:17`). -/
def genericMsg : String :=
  "Xin lỗi, đã có lỗi xảy ra. Vui lòng thử lại."

/-- `getFriendlyErrorMessage` (`useChat.ts:6-18`). -/
def getFriendlyErrorMessage (error : JsError) : String :=
  if error.status = some 429 ∨ error.code = some 429 ∨
     strContains error.errString "429" = true ∨
     strContains error.errString "RESOURCE_EXHAUSTED" = true ∨
     strContains error.errString "quota" = true
  then quotaMsg
  else genericMsg

/-- The default placeholder title (`useChat.ts:119`, `useChat.ts:271`). -/
def defaultTitle : String := "Cuộc trò chuyện mới"

/-- The sessions sort used on load and on sync
(`useChat.ts:65`, `useChat.ts:134`): JS `sort((a, b) => b.updatedAt - a.updatedAt)`,
i.e. a stable sort descending by `updatedAt`, rendered here as an insertion
sort (stable sorts agree on a total preorder, so this computes the array
the engine's stable `Array.prototype.sort` produces). -/
def sortDesc (l : List ChatSession) : List ChatSession :=
  l.insertionSort (fun a b => b.updatedAt ≤ a.updatedAt)

/-- `startNewChat` (`useChat.ts:30-40`): clears the current session id, the
live message list (when asked to), the Gemini chat instance and the abort
controller reference. -/
def startNewChat (st : FullState) (shouldClearMessages : Bool := true) : FullState :=
  { st with
      currentSessionId := none,
      messages := if shouldClearMessages then [] else st.messages,
      chatContext := none,
      abortSignal := none }

/-- `stopGeneration` (`useChat.ts:42-49`): aborts the active controller's
signal, if any, without clearing the controller reference, and sets the
loading flag false. -/
def stopGeneration (st : FullState) : FullState :=
  { st with
      abortSignal := st.abortSignal.map (fun _ => true),
      isLoading := false }

/-- Outcome of reading and deserializing the persisted payload for a user:
`absent` = no stored record, `malformed` = `JSON.parse`/`map` threw,
`ok parsed` = the deserialized session array (timestamps reconstructed). -/
inductive StoredData where
  | absent
  | malformed
  | ok (parsed : List ChatSession)

/-- The load-on-login effect (`useChat.ts:52-83`): on a present identity it
loads and sorts the stored sessions and starts a fresh conversation,
swallowing deserialization failures (note that the `catch` branch does not
touch `sessions`); on a null identity it clears sessions, messages and the
current session id. -/
def loadEffect (st : FullState) (userEmail : Option String) (stored : StoredData) : FullState :=
  match userEmail with
  | some _ =>
      match stored with
      | .ok parsed => startNewChat { st with sessions := sortDesc parsed } true
      | .malformed => startNewChat st true
      | .absent => startNewChat { st with sessions := [] } true
  | none =>
      { st with sessions := [], messages := [], currentSessionId := none }

/-- `deleteSession` (`useChat.ts:148-160`): filters the session out; when it
was the current one, resets to a fresh conversation via `startNewChat`.
(The `e.stopPropagation()` on the DOM event is UI-only and not modelled.) -/
def deleteSession (st : FullState) (sessionId : String) : FullState :=
  let st1 := { st with sessions := st.sessions.filter (fun s => decide (s.id ≠ sessionId)) }
  if st.currentSessionId = some sessionId then startNewChat st1 true else st1

/-- The dirty-check of the sync effect (`useChat.ts:105-113`): skip the
update when the lengths agree and the last messages agree on id, text,
error flag and attachment.  (The source compares `attachment` with `===`;
structural equality is used here, which coincides with it on the states the
claims exercise, where the skip only ever fires on literally identical
lists.) -/
def dirtySkip (sessionMsgs liveMsgs : List Message) : Bool :=
  decide (sessionMsgs.length = liveMsgs.length) &&
  (match sessionMsgs.getLast?, liveMsgs.getLast? with
   | some a, some b =>
       decide (a.id = b.id ∧ a.text = b.text ∧ a.isError = b.isError ∧
               a.attachment = b.attachment)
   | _, _ => false)

/-- The title derivation of the sync effect (`useChat.ts:116-124`):
only while the title still equals the default placeholder, derive it from
the first user message's text, appending an ellipsis when that text is
longer than 30 units. -/
def deriveTitle (currentTitle : String) (msgs : List Message) : String :=
  if currentTitle = defaultTitle ∧ 0 < msgs.length then
    match msgs.find? (fun m => decide (m.sender = Sender.user)) with
    | some firstUserMsg =>
        jsScan firstUserMsg.text 30 ++
          (if 30 < firstUserMsg.text.length then "..." else "")
    | none => currentTitle
  else currentTitle

/-- The `setSessions` updater of the sync effect (`useChat.ts:96-135`):
locate the current session, skip when the dirty-check passes, otherwise
replace its messages, derive the title, stamp `updatedAt` and re-sort. -/
def syncSessions (sessions : List ChatSession) (sid : String) (msgs : List Message)
    (now : Nat) : List ChatSession :=
  match jsFindIndex (fun s => decide (s.id = sid)) sessions with
  | none => sessions
  | some idx =>
      match sessions[idx]? with
      | none => sessions
      | some currentSession =>
          if dirtySkip currentSession.messages msgs then sessions
          else
            sortDesc (sessions.set idx
              { currentSession with
                  messages := msgs,
                  title := deriveTitle currentSession.title msgs,
                  updatedAt := now })

/-- The guard plus body of the sync effect (`useChat.ts:93-137`): runs only
when a current session id is set and the live list is non-empty. -/
def syncStep (st : FullState) (now : Nat) : FullState :=
  match st.currentSessionId with
  | none => st
  | some sid =>
      if 0 < st.messages.length then
        { st with sessions := syncSessions st.sessions sid st.messages now }
      else st

/-- One function call carried by a stream chunk; `argsPrompt` stands for
`(call.args as any).prompt`, with `none` for an absent property. -/
structure FunctionCall where
  name : String
  argsPrompt : Option String := none
deriving DecidableEq

/-- One streamed chunk: its function calls (possibly empty) and its text
(`chunk.text || ''`, so an absent text is the empty string). -/
structure Chunk where
  functionCalls : List FunctionCall := []
  text : String := ""
deriving DecidableEq

/-- The tool-call detection of the stream loop (`useChat.ts:322-325`): the
chunk's first function call, when it is named `generate_image`. -/
def detectGenImage (c : Chunk) : Option FunctionCall :=
  match c.functionCalls with
  | [] => none
  | call :: _ => if call.name = "generate_image" then some call else none

/-- The image prompt (`useChat.ts:327`): `(call.args as any).prompt || text`,
falling back to the outbound text when the argument is absent or empty. -/
def promptOf (call : FunctionCall) (origText : String) : String :=
  match call.argsPrompt with
  | some p => if p = "" then origText else p
  | none => origText

/-- One part of a `generateImage` response candidate
(`candidates[0].content.parts`). -/
structure GenPart where
  inlineData : Option Attachment := none
  text : Option String := none
deriving DecidableEq

/-- The parts walk of `handleImageGeneration` (`useChat.ts:200-212`): the
last inline-data part wins as the attachment; the texts of the parts
without inline data are concatenated (empty/absent texts are falsy and
skipped). -/
def collectGen (parts : List GenPart) : Option Attachment × String :=
  parts.foldl
    (fun acc p =>
      match p.inlineData with
      | some att => (some att, acc.2)
      | none =>
          match p.text with
          | some t => if t = "" then acc else (acc.1, acc.2 ++ t)
          | none => acc)
    (none, "")

/-- The caption used when the model returns an image without text
(`useChat.ts:222`). -/
def imageCaption : String := "Đây là hình ảnh mình vừa tạo theo yêu cầu của bạn:"

/-- The soft-failure caption when no image data is returned
(`useChat.ts:228`). -/
def noImageMsg : String := "Xin lỗi, mình không thể tạo hình ảnh lúc này."

/-- `handleImageGeneration` (`useChat.ts:191-243`) as a message-list
transformer.  `resp` is the settled `generateImage` promise (`.error e` =
it threw); `aborted` is the value of `controller.signal.aborted` observed
at the function's check points, under which no mutation happens. -/
def handleImageGeneration (resp : Except JsError (List GenPart)) (botMsgId : String)
    (aborted : Bool) (msgs : List Message) : List Message :=
  if aborted then msgs
  else
    match resp with
    | .error e =>
        msgs.map (fun m =>
          if m.id = botMsgId then
            { m with text := getFriendlyErrorMessage e, isError := some true }
          else m)
    | .ok parts =>
        let collected := collectGen parts
        msgs.map (fun m =>
          if m.id = botMsgId then
            match collected.1 with
            | some att =>
                { m with
                    text := if collected.2 = "" then imageCaption else collected.2,
                    attachment := some att }
            | none => { m with text := noImageMsg, isError := some true }
          else m)

/-- The working caption shown while an auto-detected image generation runs
(`useChat.ts:329`). -/
def autoImageCaption : String := "Đang tạo hình ảnh tự động..."

/-- The chunk-text application (`useChat.ts:341-350`): append the chunk's
text to the last message when it is the in-progress assistant message. -/
def appendChunkText (botMsgId : String) (msgs : List Message) (chunkText : String) :
    List Message :=
  match msgs.getLast? with
  | some lastMsg =>
      if lastMsg.id = botMsgId then
        msgs.dropLast ++ [{ lastMsg with text := lastMsg.text ++ chunkText }]
      else msgs
  | none => msgs

/-- How the stream loop ended: the stream closed, the abort check broke out,
or a `generate_image` tool call pre-empted it (carrying the prompt used). -/
inductive LoopExit where
  | completed
  | abortedOut
  | toolCalled (prompt : String)
deriving DecidableEq

/-- The chunk consumption loop (`useChat.ts:316-353`).  `sig i` is the
value of `controller.signal.aborted` observed at the check before the
`i`-th chunk (the cooperative signal is monotone in the source; here it is
simply sampled).  A `generate_image` first call replaces the placeholder's
caption, runs the image-generation path and breaks; otherwise a non-empty
chunk text is appended to the assistant message. -/
def streamLoop (sig : Nat → Bool) (botMsgId origText : String)
    (genResp : Except JsError (List GenPart)) :
    List Chunk → Nat → List Message → List Message × LoopExit
  | [], _, msgs => (msgs, .completed)
  | c :: rest, i, msgs =>
      if sig i then (msgs, .abortedOut)
      else
        match detectGenImage c with
        | some call =>
            let msgs1 := msgs.map (fun m =>
              if m.id = botMsgId then { m with text := autoImageCaption } else m)
            (handleImageGeneration genResp botMsgId (sig (i + 1)) msgs1,
             .toolCalled (promptOf call origText))
        | none =>
            let msgs1 := if c.text = "" then msgs else appendChunkText botMsgId msgs c.text
            streamLoop sig botMsgId origText genResp rest (i + 1) msgs1

/-- The outbound user message built by `sendMessage` (`useChat.ts:253-260`);
`now` is the `Date.now()` sampled there. -/
def mkUserMsg (text : String) (attachment : Option Attachment) (now : Nat) : Message :=
  { id := toString now,
    sender := .user,
    text := text,
    timestamp := now,
    attachment := attachment }

/-- The placeholder assistant message (`useChat.ts:282-291`), whose id is
`Date.now() + 1`. -/
def mkBotMsg (isImageGen : Bool) (now : Nat) : Message :=
  { id := toString (now + 1),
    sender := .model,
    text := if isImageGen then "Đang vẽ hình..." else "",
    timestamp := now }

/-- The synchronous prefix of `sendMessage` (`useChat.ts:245-291`): the
empty-content guard, the lazy session creation (seeding the title from the
first 30 units of the text, or the placeholder when that slice is empty),
the optimistic append of the user message and of the assistant placeholder,
and the fresh abort controller with the loading flag raised. -/
def sendPrepare (st : FullState) (text : String) (attachment : Option Attachment)
    (isImageGen : Bool) (now : Nat) : FullState :=
  if jsTrim text = "" ∧ attachment = none then st
  else
    let userMsg := mkUserMsg text attachment now
    let st1 :=
      match st.currentSessionId with
      | some _ => st
      | none =>
          let sid := toString now
          let newSession : ChatSession :=
            { id := sid,
              title := if jsScan text 30 = "" then defaultTitle else jsScan text 30,
              messages := st.messages ++ [userMsg],
              updatedAt := now }
          { st with currentSessionId := some sid, sessions := newSession :: st.sessions }
    { st1 with
        messages := st1.messages ++ [userMsg, mkBotMsg isImageGen now],
        isLoading := true,
        abortSignal := some false }

/-- Fate of the awaited stream: it either yields its chunks and closes, or
it yields some chunks and then the next await throws. -/
inductive StreamFate where
  | yields (chunks : List Chunk)
  | fails (chunks : List Chunk) (e : JsError)

/-- The `try`/`catch`/`finally` of the conversational branch of
`sendMessage` (`useChat.ts:296-382`), acting on the prepared state: the
stream loop runs; when the stream throws after its chunks and the loop had
not broken out, the `catch` either returns silently (cancellation) or
appends the translated error message and resets the Gemini context; the
`finally` clears the controller reference and the loading flag (this run
models the single in-flight turn, whose controller is still the active
one). -/
def runStreamPhase (st : FullState) (botMsgId origText : String) (sig : Nat → Bool)
    (fate : StreamFate) (genResp : Except JsError (List GenPart)) (errNow : Nat) :
    FullState :=
  match fate with
  | .yields cs =>
      let r := streamLoop sig botMsgId origText genResp cs 0 st.messages
      { st with
          messages := r.1,
          chatContext := some (),
          isLoading := false,
          abortSignal := none }
  | .fails cs e =>
      let r := streamLoop sig botMsgId origText genResp cs 0 st.messages
      match r.2 with
      | .completed =>
          if sig cs.length = true ∨ e.name = "AbortError" then
            { st with
                messages := r.1,
                chatContext := some (),
                isLoading := false,
                abortSignal := none }
          else
            { st with
                messages := r.1 ++
                  [{ id := toString errNow,
                     sender := .model,
                     text := getFriendlyErrorMessage e,
                     timestamp := errNow,
                     isError := some true }],
                chatContext := some (),
                isLoading := false,
                abortSignal := none }
      | _ =>
          { st with
              messages := r.1,
              chatContext := some (),
              isLoading := false,
              abortSignal := none }

/-- A whole `sendMessage` run (`useChat.ts:245-383`): the synchronous
prefix, then either the explicit image-generation path or the streaming
conversational path.  `sig` is the abort-signal schedule of this turn's
controller, `fate` the stream's behaviour, `genResp` the settled
`generateImage` response where that path is taken, and `errNow` the
`Date.now()` of a caught failure's message id. -/
def runSendMessage (st : FullState) (text : String) (attachment : Option Attachment)
    (isImageGen : Bool) (now : Nat) (sig : Nat → Bool) (fate : StreamFate)
    (genResp : Except JsError (List GenPart)) (errNow : Nat) : FullState :=
  if jsTrim text = "" ∧ attachment = none then st
  else
    let stP := sendPrepare st text attachment isImageGen now
    let botMsgId := toString (now + 1)
    if isImageGen then
      { stP with
          messages := handleImageGeneration genResp botMsgId (sig 0) stP.messages,
          isLoading := false,
          abortSignal := none }
    else
      runStreamPhase stP botMsgId text sig fate genResp errNow

/-- The state of the hook before any interaction: empty lists, no current
session, nothing in flight. -/
def freshState : FullState :=
  { messages := [],
    sessions := [],
    currentSessionId := none,
    isLoading := false,
    chatContext := none,
    abortSignal := none }

/-- The concatenation of the texts of a chunk list, in arrival order. -/
def chunkConcat : List Chunk → String
  | [] => ""
  | c :: rest => c.text ++ chunkConcat rest

/-- The stored state right after a first message is sent from a fresh
conversation and the sync effect has run on the resulting live list. -/
def afterFirstSend (text : String) (attachment : Option Attachment) (now now2 : Nat) :
    FullState :=
  syncStep (sendPrepare freshState text attachment false now) now2

/-- Sessions kept in descending order of `updatedAt`. -/
def sortedByRecency (l : List ChatSession) : Prop :=
  l.Pairwise (fun a b => b.updatedAt ≤ a.updatedAt)

/-- A 31-character first message, for exercising the truncation. -/
def c1LongText : String := "aaaaaaaaaaaaaaaaaaaaaaaaaaaaaaa"

/-- A session of a previously logged-in identity. -/
def leakSession : ChatSession :=
  { id := "a", title := "t", messages := [], updatedAt := 3 }

/-- Concrete fixture: a user message. -/
def msgU : Message := { id := "1", sender := .user, text := "hi", timestamp := 1 }

/-- Concrete fixture: an assistant message. -/
def msgB : Message := { id := "2", sender := .model, text := "yo", timestamp := 2 }

/-- Concrete fixture: a second persisted session. -/
def sessB : ChatSession := { id := "sB", title := "B", messages := [], updatedAt := 4 }

/-- Concrete fixture: a hook state with one out-of-date current session and
one other session. -/
def stW : FullState :=
  { messages := [msgU, msgB],
    sessions := [{ id := "sA", title := "hi", messages := [msgU], updatedAt := 5 }, sessB],
    currentSessionId := some "sA",
    isLoading := false,
    chatContext := some (),
    abortSignal := some false }

/-- Concrete fixture: a three-chunk stream. -/
def wChunks : List Chunk := [{ text := "Hi" }, { text := " there" }, { text := "!" }]

/-- Concrete fixture: a quota-exhaustion failure. -/
def wErr429 : JsError := { status := some 429, name := "ApiError" }

/-- Concrete fixture: a generic failure. -/
def wErrOther : JsError := { errString := "boom", name := "Error" }

/-- Concrete fixture: a chunk whose first function call is `generate_image`. -/
def wToolChunk : Chunk :=
  { functionCalls := [{ name := "generate_image", argsPrompt := some "a cat" }],
    text := "ignored" }

/-! ## Theorems -/

/-- C10: `stopGeneration` in any state sets the loading flag false, leaves
the live message list, the session collection, the current-session id and
the Gemini context untouched, and only flips the abort signal of the active
controller when one exists, without clearing the controller reference. -/
theorem stopGeneration_frame (st : FullState) :
    (stopGeneration st).messages = st.messages ∧
    (stopGeneration st).sessions = st.sessions ∧
    (stopGeneration st).currentSessionId = st.currentSessionId ∧
    (stopGeneration st).chatContext = st.chatContext ∧
    (stopGeneration st).isLoading = false ∧
    (st.abortSignal = none → (stopGeneration st).abortSignal = none) ∧
    (∀ b, st.abortSignal = some b → (stopGeneration st).abortSignal = some true) := by
  refine ⟨rfl, rfl, rfl, rfl, rfl, ?_, ?_⟩
  · intro h
    simp [stopGeneration, h]
  · intro b h
    simp [stopGeneration, h]

/-- Witness for C10 at a concrete state with an active, not-yet-aborted
controller. -/
theorem stopGeneration_frame_witness :
    stW.abortSignal = some false ∧
    (stopGeneration stW).isLoading = false ∧
    (stopGeneration stW).abortSignal = some true ∧
    (stopGeneration stW).messages = stW.messages := by
  have h := stopGeneration_frame stW
  exact ⟨rfl, h.2.2.2.2.1, h.2.2.2.2.2.2 false rfl, h.1⟩

/-- C3: for every identity change (login with any stored payload, or
logout) and from any prior state, the resulting live message list is empty
and the current-session id is cleared, so no message of the previous
identity survives into the new identity's view. -/
theorem loadEffect_resets (st : FullState) (userEmail : Option String)
    (stored : StoredData) :
    (loadEffect st userEmail stored).messages = [] ∧
    (loadEffect st userEmail stored).currentSessionId = none := by
  cases userEmail with
  | none => exact ⟨rfl, rfl⟩
  | some e => cases stored <;> exact ⟨rfl, rfl⟩

/-- C2 counterexample: a load that hits malformed stored data does not
empty the in-memory session collection — the `catch` branch never touches
`sessions`, so a session already in memory survives the failed load. -/
theorem loadEffect_malformed_keeps_sessions :
    (loadEffect { freshState with sessions := [leakSession] } (some "b") .malformed).sessions
      ≠ [] := by
  decide

/-- C2 amended: a load that hits malformed stored data never crashes (the
transformer is total) and degrades to a fresh conversation — empty live
message list, no current session id — but leaves the in-memory session
collection exactly as it was before the load; it is therefore empty
precisely when the prior collection was empty, which is the case on every
load the application can actually perform (logout and the initial state
both leave an empty collection). -/
theorem loadEffect_malformed_amended (st : FullState) (userEmail : String) :
    (loadEffect st (some userEmail) .malformed).messages = [] ∧
    (loadEffect st (some userEmail) .malformed).currentSessionId = none ∧
    (loadEffect st (some userEmail) .malformed).sessions = st.sessions ∧
    (st.sessions = [] → (loadEffect st (some userEmail) .malformed).sessions = []) := by
  exact ⟨rfl, rfl, rfl, fun h => h⟩

/-- Witness for C2's amended statement at a concrete non-empty prior
state. -/
theorem loadEffect_malformed_amended_witness :
    (loadEffect stW (some "b") .malformed).messages = [] ∧
    (loadEffect stW (some "b") .malformed).currentSessionId = none ∧
    (loadEffect stW (some "b") .malformed).sessions = stW.sessions ∧
    (loadEffect freshState (some "b") .malformed).sessions = [] := by
  have h := loadEffect_malformed_amended stW "b"
  have h2 := loadEffect_malformed_amended freshState "b"
  exact ⟨h.1, h.2.1, h.2.2.1, h2.2.2.2 rfl⟩

/-- C7: deleting the current session resets to the fresh-conversation state
(no current id, empty live messages, invalidated Gemini context); deleting
a non-current session leaves the live list, the current id and the loading
flag alone; in both cases exactly the sessions carrying the deleted id are
removed and every other session survives. -/
theorem deleteSession_spec (st : FullState) (sid : String) :
    (st.currentSessionId = some sid →
      (deleteSession st sid).currentSessionId = none ∧
      (deleteSession st sid).messages = [] ∧
      (deleteSession st sid).chatContext = none) ∧
    (st.currentSessionId ≠ some sid →
      (deleteSession st sid).messages = st.messages ∧
      (deleteSession st sid).currentSessionId = st.currentSessionId ∧
      (deleteSession st sid).isLoading = st.isLoading) ∧
    (∀ s ∈ st.sessions, s.id ≠ sid → s ∈ (deleteSession st sid).sessions) ∧
    (∀ s ∈ (deleteSession st sid).sessions, s ∈ st.sessions ∧ s.id ≠ sid) := by
  by_cases h : st.currentSessionId = some sid
  · have hd : deleteSession st sid =
        startNewChat { st with sessions := st.sessions.filter (fun s => decide (s.id ≠ sid)) }
          true := by
      simp [deleteSession, h]
    refine ⟨fun _ => ?_, fun hc => absurd h hc, ?_, ?_⟩
    · rw [hd]; exact ⟨rfl, rfl, rfl⟩
    · intro s hs hne
      rw [hd]
      simp [startNewChat, List.mem_filter, hs, hne]
    · intro s hs
      rw [hd] at hs
      simp only [startNewChat, List.mem_filter, decide_eq_true_eq] at hs
      exact hs
  · have hd : deleteSession st sid =
        { st with sessions := st.sessions.filter (fun s => decide (s.id ≠ sid)) } := by
      simp [deleteSession, h]
    refine ⟨fun hc => absurd hc h, fun _ => ?_, ?_, ?_⟩
    · rw [hd]; exact ⟨rfl, rfl, rfl⟩
    · intro s hs hne
      rw [hd]
      simp [List.mem_filter, hs, hne]
    · intro s hs
      rw [hd] at hs
      simp only [List.mem_filter, decide_eq_true_eq] at hs
      exact hs

/-- Helper: a 30-unit slice of a string no longer than 30 units is the
whole string. -/
theorem jsScan_eq_self (s : String) (h : s.length ≤ 30) : jsScan s 30 = s := by
  unfold jsScan
  rw [List.take_of_length_le h]

/-- Helper: the 30-unit slice is empty exactly for the empty string. -/
theorem jsScan_eq_empty_iff (s : String) : jsScan s 30 = "" ↔ s = "" := by
  constructor
  · intro h
    have hd : s.data.take 30 = [] := congrArg String.data h
    rcases List.take_eq_nil_iff.mp hd with h30 | hnil
    · exact absurd h30 (by decide)
    · exact String.ext (hnil.trans rfl)
  · intro h
    subst h
    rfl

/-- Helper: only the default placeholder itself slices to the default
placeholder (the placeholder is 19 units long, shorter than the cut). -/
theorem jsScan_eq_default (s : String) (h : jsScan s 30 = defaultTitle) :
    s = defaultTitle := by
  have hd : s.data.take 30 = defaultTitle.data := congrArg String.data h
  have hlen : (30 : Nat) ⊓ s.data.length = 19 := by
    rw [← List.length_take, hd]
    decide
  have hle : s.data.length ≤ 30 := by omega
  refine String.ext ?_
  rw [← List.take_of_length_le hle, hd]

/-- Helper: the state prepared by a first `sendMessage` from a fresh
conversation: the new session holds the user message and a title seeded
from the slice of the text (without any ellipsis), and the live list holds
the user message plus the assistant placeholder. -/
theorem sendPrepare_fresh (text : String) (att : Option Attachment) (now : Nat)
    (h : ¬(jsTrim text = "" ∧ att = none)) :
    sendPrepare freshState text att false now =
      { messages := [mkUserMsg text att now, mkBotMsg false now],
        sessions := [{ id := toString now,
                       title := if jsScan text 30 = "" then defaultTitle else jsScan text 30,
                       messages := [mkUserMsg text att now],
                       updatedAt := now }],
        currentSessionId := some (toString now),
        isLoading := true,
        chatContext := none,
        abortSignal := some false } := by
  simp [sendPrepare, freshState, h]

/-- Helper: the sync effect's title derivation on a two-message live list
headed by a user message. -/
theorem deriveTitle_pair (T : String) (u b : Message) (hu : u.sender = Sender.user) :
    deriveTitle T [u, b] =
      if T = defaultTitle then
        jsScan u.text 30 ++ (if 30 < u.text.length then "..." else "")
      else T := by
  by_cases hT : T = defaultTitle
  · simp [deriveTitle, hT, List.find?, hu]
  · simp [deriveTitle, hT]

/-- C1 counterexample: after a 31-character first user message is sent and
synced, the stored title is the bare 30-character slice, not the slice
followed by the ellipsis marker: the creation-time title already differs
from the default placeholder, so the sync effect's ellipsis branch never
runs. -/
theorem firstSend_title_no_ellipsis :
    c1LongText.length = 31 ∧
    (afterFirstSend c1LongText none 100 200).sessions.map (fun s => s.title) ≠
      [jsScan c1LongText 30 ++ "..."] := by
  constructor
  · decide
  · decide

/-- C1 amended: for a first user message sent from a fresh conversation,
the stored title after sync always equals the bare first-30-unit slice of
the text: for text longer than 30 units this is the first 30 units with no
ellipsis marker appended, for text of length at most 30 it is the text
unchanged, and for an empty text (an attachment-only message) it is the
empty string — the default placeholder survives only until the first
sync overwrites it. -/
theorem firstSend_title_amended (text : String) (att : Option Attachment)
    (now now2 : Nat) (hguard : ¬(jsTrim text = "" ∧ att = none)) :
    (afterFirstSend text att now now2).sessions.map (fun s => s.title) =
      [jsScan text 30] ∧
    (text.length ≤ 30 → jsScan text 30 = text) ∧
    jsScan text 30 ≠ jsScan text 30 ++ "..." := by
  refine ⟨?_, fun h => jsScan_eq_self text h, ?_⟩
  · unfold afterFirstSend
    rw [sendPrepare_fresh text att now hguard]
    simp only [syncStep, syncSessions, jsFindIndex, dirtySkip, sortDesc]
    simp [List.insertionSort, List.orderedInsert]
    rw [deriveTitle_pair _ _ _ rfl]
    by_cases h0 : jsScan text 30 = ""
    · rw [if_pos h0, if_pos rfl]
      show jsScan text 30 ++ (if 30 < text.length then "..." else "") = jsScan text 30
      have ht : text = "" := (jsScan_eq_empty_iff text).mp h0
      subst ht
      decide
    · rw [if_neg h0]
      by_cases hd : jsScan text 30 = defaultTitle
      · rw [if_pos hd]
        show jsScan text 30 ++ (if 30 < text.length then "..." else "") = jsScan text 30
        have ht : text = defaultTitle := jsScan_eq_default text hd
        subst ht
        decide
      · rw [if_neg hd]
  · intro h
    have hlen := congrArg String.length h
    rw [String.length_append] at hlen
    have : ("..." : String).length = 3 := by decide
    omega

/-- Witness for C1's amended statement: the 31-character first message
yields the bare 30-character slice as stored title, and an attachment-only
empty first message yields the empty string rather than the placeholder. -/
theorem firstSend_title_amended_witness :
    (¬(jsTrim c1LongText = "" ∧ (none : Option Attachment) = none) ∧
      (afterFirstSend c1LongText none 100 200).sessions.map (fun s => s.title) =
        [jsScan c1LongText 30]) ∧
    (¬(jsTrim "" = "" ∧ (some { mimeType := "image/png", data := "zz" } : Option Attachment) = none) ∧
      (afterFirstSend "" (some { mimeType := "image/png", data := "zz" }) 100 200).sessions.map
          (fun s => s.title) = [""]) := by
  refine ⟨⟨by decide, (firstSend_title_amended c1LongText none 100 200 (by decide)).1⟩,
          ⟨by decide, ?_⟩⟩
  exact (firstSend_title_amended "" (some { mimeType := "image/png", data := "zz" }) 100 200
    (by decide)).1

/-- Witness for C7: deleting the current session of a concrete state, and
deleting a non-current one. -/
theorem deleteSession_spec_witness :
    (stW.currentSessionId = some "sA" ∧
      (deleteSession stW "sA").currentSessionId = none ∧
      (deleteSession stW "sA").messages = []) ∧
    (stW.currentSessionId ≠ some "sB" ∧
      (deleteSession stW "sB").messages = stW.messages ∧
      sessB ∈ stW.sessions ∧ sessB.id ≠ "sA" ∧
      sessB ∈ (deleteSession stW "sA").sessions) := by
  have hA := deleteSession_spec stW "sA"
  have hB := deleteSession_spec stW "sB"
  refine ⟨⟨rfl, (hA.1 rfl).1, (hA.1 rfl).2.1⟩,
          ⟨by decide, (hB.2.1 (by decide)).1, by decide, by decide, ?_⟩⟩
  exact hA.2.2.1 sessB (by decide) (by decide)

/-- Helper: the descending sort always produces a collection sorted by
recency. -/
theorem sortDesc_sorted (l : List ChatSession) : sortedByRecency (sortDesc l) := by
  haveI : IsTotal ChatSession (fun a b => b.updatedAt ≤ a.updatedAt) :=
    ⟨fun a b => Nat.le_total b.updatedAt a.updatedAt⟩
  haveI : IsTrans ChatSession (fun a b => b.updatedAt ≤ a.updatedAt) :=
    ⟨fun _ _ _ hab hbc => Nat.le_trans hbc hab⟩
  exact List.sorted_insertionSort _ l

/-- C9: the session collection stays sorted in descending order of
`updatedAt` through every load, through every lazy session creation of
`sendMessage` (the new session is prepended as the most recent entry, valid
whenever the clock has not run backwards relative to the existing
sessions), and through every sync of the live messages into a session. -/
theorem sessions_sorted_invariant (st : FullState) :
    (∀ (userEmail : Option String) (stored : StoredData),
      sortedByRecency st.sessions →
      sortedByRecency (loadEffect st userEmail stored).sessions) ∧
    (∀ (text : String) (att : Option Attachment) (isImageGen : Bool) (now : Nat),
      sortedByRecency st.sessions →
      (∀ s ∈ st.sessions, s.updatedAt ≤ now) →
      sortedByRecency (sendPrepare st text att isImageGen now).sessions) ∧
    (∀ now : Nat, sortedByRecency st.sessions →
      sortedByRecency (syncStep st now).sessions) := by
  refine ⟨?_, ?_, ?_⟩
  · intro userEmail stored hs
    cases userEmail with
    | none => exact List.Pairwise.nil
    | some e =>
        cases stored with
        | absent => exact List.Pairwise.nil
        | malformed => exact hs
        | ok parsed => exact sortDesc_sorted parsed
  · intro text att isImageGen now hs hle
    by_cases hg : jsTrim text = "" ∧ att = none
    · simpa [sendPrepare, hg] using hs
    · cases hc : st.currentSessionId with
      | some sid => simpa [sendPrepare, hg, hc] using hs
      | none =>
          have : (sendPrepare st text att isImageGen now).sessions =
              { id := toString now,
                title := if jsScan text 30 = "" then defaultTitle else jsScan text 30,
                messages := st.messages ++ [mkUserMsg text att now],
                updatedAt := now } :: st.sessions := by
            simp [sendPrepare, hg, hc]
          rw [this, sortedByRecency, List.pairwise_cons]
          exact ⟨fun s hsmem => hle s hsmem, hs⟩
  · intro now hs
    cases hc : st.currentSessionId with
    | none => simpa [syncStep, hc] using hs
    | some sid =>
        by_cases hm : 0 < st.messages.length
        · have hsess : (syncStep st now).sessions =
              syncSessions st.sessions sid st.messages now := by
            simp [syncStep, hc, hm]
          rw [hsess]
          cases hf : jsFindIndex (fun s => decide (s.id = sid)) st.sessions with
          | none => simpa [syncSessions, hf] using hs
          | some idx =>
              cases hg : st.sessions[idx]? with
              | none => simpa [syncSessions, hf, hg] using hs
              | some cur =>
                  by_cases hskip : dirtySkip cur.messages st.messages = true
                  · simpa [syncSessions, hf, hg, hskip] using hs
                  · simpa [syncSessions, hf, hg, hskip] using
                      sortDesc_sorted (st.sessions.set idx
                        { cur with
                            messages := st.messages,
                            title := deriveTitle cur.title st.messages,
                            updatedAt := now })
        · simpa [syncStep, hc, hm] using hs

/-- Witness for C9 at a concrete sorted state: a load with freshly parsed
data, a first send creating a session, and a sync. -/
theorem sessions_sorted_invariant_witness :
    sortedByRecency stW.sessions ∧
    sortedByRecency (loadEffect stW (some "u") (.ok [leakSession, sessB])).sessions ∧
    ((∀ s ∈ stW.sessions, s.updatedAt ≤ 100) ∧
      sortedByRecency (sendPrepare (startNewChat stW true) "Hello" none false 100).sessions) ∧
    sortedByRecency (syncStep stW 100).sessions := by
  have h := sessions_sorted_invariant stW
  have hsorted : sortedByRecency stW.sessions := by
    rw [sortedByRecency]
    decide
  have h2 := sessions_sorted_invariant (startNewChat stW true)
  have hsorted2 : sortedByRecency (startNewChat stW true).sessions := by
    rw [sortedByRecency]
    decide
  refine ⟨hsorted, h.1 (some "u") (.ok [leakSession, sessB]) hsorted, ⟨by decide, ?_⟩,
          h.2.2 100 hsorted⟩
  exact h2.2.1 "Hello" none false 100 hsorted2 (by decide)

/-- Helper: a successful `findIndex` points at an element satisfying the
predicate. -/
theorem jsFindIndex_some {α : Type} {p : α → Bool} (l : List α) :
    ∀ idx : Nat, jsFindIndex p l = some idx → ∃ x, l[idx]? = some x ∧ p x = true := by
  induction l with
  | nil => intro idx h; simp [jsFindIndex] at h
  | cons a as ih =>
      intro idx h
      by_cases hpa : p a = true
      · simp [jsFindIndex, hpa] at h
        subst h
        exact ⟨a, by simp, hpa⟩
      · simp [jsFindIndex, hpa] at h
        obtain ⟨j, hj, hidx⟩ := h
        obtain ⟨x, hx, hpx⟩ := ih j hj
        subst hidx
        exact ⟨x, by simpa using hx, hpx⟩

/-- Helper: `findIndex` succeeds as soon as some member satisfies the
predicate. -/
theorem jsFindIndex_of_mem {α : Type} {p : α → Bool} (l : List α) (x : α)
    (hx : x ∈ l) (hpx : p x = true) : ∃ idx, jsFindIndex p l = some idx := by
  induction l with
  | nil => cases hx
  | cons a as ih =>
      by_cases hpa : p a = true
      · exact ⟨0, by simp [jsFindIndex, hpa]⟩
      · rcases List.mem_cons.mp hx with rfl | hmem
        · exact absurd hpx hpa
        · obtain ⟨j, hj⟩ := ih hmem
          exact ⟨j + 1, by simp [jsFindIndex, hpa, hj]⟩

/-- Helper: the dirty-check always passes on a non-empty live list compared
against itself. -/
theorem dirtySkip_self (msgs : List Message) (h : 0 < msgs.length) :
    dirtySkip msgs msgs = true := by
  have hne : msgs ≠ [] := by
    intro hh
    subst hh
    simp at h
  obtain ⟨m, hm⟩ := Option.isSome_iff_exists.mp (List.getLast?_isSome.mpr hne)
  simp [dirtySkip, hm]

/-- Helper: in a collection with pairwise-distinct ids, the only element of
`l.set idx b` carrying the id shared by `b` and `l[idx]` is `b` itself. -/
theorem set_unique_by_id (l : List ChatSession) (idx : Nat) (hidx : idx < l.length)
    (b : ChatSession) (hnodup : (l.map (fun s => s.id)).Nodup)
    (x : ChatSession) (hx : x ∈ l.set idx b)
    (hxid : x.id = (l.get ⟨idx, hidx⟩).id) : x = b := by
  obtain ⟨j, hj, hget⟩ := List.mem_iff_getElem.mp hx
  rw [List.length_set] at hj
  by_cases hji : j = idx
  · subst hji
    rw [List.getElem_set_self] at hget
    exact hget.symm
  · rw [List.getElem_set_ne (fun hh => hji hh.symm)] at hget
    exfalso
    apply hji
    have hmapj : j < (l.map (fun s => s.id)).length := by
      rw [List.length_map]; exact hj
    have hmapidx : idx < (l.map (fun s => s.id)).length := by
      rw [List.length_map]; exact hidx
    have heq : (l.map (fun s => s.id))[j] = (l.map (fun s => s.id))[idx] := by
      rw [List.getElem_map, List.getElem_map]
      rw [hget]
      exact hxid
    exact (List.Nodup.getElem_inj_iff hnodup).mp heq

/-- Helper: one sync brings the stored copy of the live list fully up to
date, so a second sync over the same live list takes the dirty-check's
skip branch and returns the first sync's collection untouched. -/
theorem syncSessions_idem (sessions : List ChatSession) (sid : String)
    (msgs : List Message) (n1 n2 : Nat) (hm : 0 < msgs.length)
    (hnodup : (sessions.map (fun s => s.id)).Nodup) :
    syncSessions (syncSessions sessions sid msgs n1) sid msgs n2 =
      syncSessions sessions sid msgs n1 := by
  cases hf : jsFindIndex (fun s => decide (s.id = sid)) sessions with
  | none =>
      have h1 : syncSessions sessions sid msgs n1 = sessions := by
        simp [syncSessions, hf]
      rw [h1]
      simp [syncSessions, hf]
  | some idx =>
      obtain ⟨cur, hcur, hpcur⟩ := jsFindIndex_some sessions idx hf
      have hcurid : cur.id = sid := of_decide_eq_true hpcur
      obtain ⟨hidx, hgetc⟩ := List.getElem?_eq_some_iff.mp hcur
      by_cases hskip : dirtySkip cur.messages msgs = true
      · have h1 : syncSessions sessions sid msgs n1 = sessions := by
          simp [syncSessions, hf, hcur, hskip]
        rw [h1]
        simp [syncSessions, hf, hcur, hskip]
      · have h1 : syncSessions sessions sid msgs n1 =
            sortDesc (sessions.set idx
              { cur with
                  messages := msgs,
                  title := deriveTitle cur.title msgs,
                  updatedAt := n1 }) := by
          simp [syncSessions, hf, hcur, hskip]
        rw [h1]
        have hmem_set :
            ({ cur with
                messages := msgs,
                title := deriveTitle cur.title msgs,
                updatedAt := n1 } : ChatSession) ∈
              sessions.set idx
                { cur with
                    messages := msgs,
                    title := deriveTitle cur.title msgs,
                    updatedAt := n1 } :=
          List.mem_set sessions idx hidx _
        have hperm := List.perm_insertionSort
          (fun a b : ChatSession => b.updatedAt ≤ a.updatedAt)
          (sessions.set idx
            { cur with
                messages := msgs,
                title := deriveTitle cur.title msgs,
                updatedAt := n1 })
        have hmem : ({ cur with
            messages := msgs,
            title := deriveTitle cur.title msgs,
            updatedAt := n1 } : ChatSession) ∈
              sortDesc (sessions.set idx
                { cur with
                    messages := msgs,
                    title := deriveTitle cur.title msgs,
                    updatedAt := n1 }) :=
          hperm.mem_iff.mpr hmem_set
        obtain ⟨j, hj⟩ := @jsFindIndex_of_mem ChatSession (fun s => decide (s.id = sid)) _ _
          hmem (by simp [hcurid])
        obtain ⟨x, hxget, hpx⟩ := jsFindIndex_some _ j hj
        obtain ⟨hjlt, hgetx⟩ := List.getElem?_eq_some_iff.mp hxget
        have hxmem : x ∈ sortDesc (sessions.set idx
            { cur with
                messages := msgs,
                title := deriveTitle cur.title msgs,
                updatedAt := n1 }) := by
          rw [← hgetx]
          exact List.getElem_mem hjlt
        have hxmem_set : x ∈ sessions.set idx
            { cur with
                messages := msgs,
                title := deriveTitle cur.title msgs,
                updatedAt := n1 } :=
          hperm.mem_iff.mp hxmem
        have hx_eq : x = { cur with
            messages := msgs,
            title := deriveTitle cur.title msgs,
            updatedAt := n1 } := by
          apply set_unique_by_id sessions idx hidx _ hnodup x hxmem_set
          have : (sessions.get ⟨idx, hidx⟩).id = sid := by
        
            have : sessions.get ⟨idx, hidx⟩ = cur := hgetc
            rw [this, hcurid]
          rw [this]
          exact of_decide_eq_true hpx
        have hskip2 : dirtySkip x.messages msgs = true := by
          rw [hx_eq]
          exact dirtySkip_self msgs hm
        simp [syncSessions, hj, hxget, hskip2]
  
/-- C6: the session-sync operation is idempotent — when the live list has
not changed between two consecutive runs (the sync never mutates the live
list itself), the second run returns exactly the collection produced by the
first run, same array and same `updatedAt` stamps, provided the stored
sessions carry pairwise-distinct ids. -/
theorem syncStep_idempotent (st : FullState) (n1 n2 : Nat)
    (hnodup : (st.sessions.map (fun s => s.id)).Nodup) :
    syncStep (syncStep st n1) n2 = syncStep st n1 := by
  cases hc : st.currentSessionId with
  | none => simp [syncStep, hc]
  | some sid =>
      by_cases hm : 0 < st.messages.length
      · have h1 : syncStep st n1 =
            { st with sessions := syncSessions st.sessions sid st.messages n1 } := by
          simp [syncStep, hc, hm]
        rw [h1]
        have h2 : syncStep
            { st with sessions := syncSessions st.sessions sid st.messages n1 } n2 =
            { st with sessions := (syncSessions (syncSessions st.sessions sid st.messages n1) sid st.messages n2) } := by
          simp [syncStep, hc, hm]
        rw [h2, syncSessions_idem st.sessions sid st.messages n1 n2 hm hnodup]
      · simp [syncStep, hc, hm]

/-- Witness for C6 at a concrete state whose current session is stale with
respect to the live list. -/
theorem syncStep_idempotent_witness :
    (stW.sessions.map (fun s => s.id)).Nodup ∧
    syncStep (syncStep stW 10) 20 = syncStep stW 10 := by
  refine ⟨by decide, syncStep_idempotent stW 10 20 (by decide)⟩

/-- Helper: applying a chunk's text to a live list ending in the
in-progress assistant message rewrites exactly that message's text. -/
theorem appendChunkText_concat (botMsgId : String) (base : List Message)
    (bot : Message) (hbot : bot.id = botMsgId) (t : String) :
    appendChunkText botMsgId (base ++ [bot]) t =
      base ++ [{ bot with text := bot.text ++ t }] := by
  simp [appendChunkText, List.getLast?_concat, hbot, List.dropLast_concat]

/-- Helper: with no abort and no `generate_image` call among the chunks,
the loop appends every chunk's text to the assistant message, in arrival
order, and completes. -/
theorem streamLoop_complete (botMsgId origText : String)
    (genResp : Except JsError (List GenPart)) (cs : List Chunk) :
    ∀ (i : Nat) (base : List Message) (bot : Message), bot.id = botMsgId →
      (∀ c ∈ cs, detectGenImage c = none) →
      streamLoop (fun _ => false) botMsgId origText genResp cs i (base ++ [bot]) =
        (base ++ [{ bot with text := bot.text ++ chunkConcat cs }], .completed) := by
  induction cs with
  | nil =>
      intro i base bot hbot _
      simp [streamLoop, chunkConcat]
  | cons c rest ih =>
      intro i base bot hbot hng
      have hc : detectGenImage c = none := hng c (by simp)
      have hmsgs1 :
          (if c.text = "" then base ++ [bot]
           else appendChunkText botMsgId (base ++ [bot]) c.text) =
            base ++ [{ bot with text := bot.text ++ c.text }] := by
        by_cases ht : c.text = ""
        · simp [ht]
        · rw [if_neg ht, appendChunkText_concat botMsgId base bot hbot]
      have hrec := ih (i + 1) base { bot with text := bot.text ++ c.text } hbot
        (fun c' h => hng c' (by simp [h]))
      simp only [streamLoop, hc, Bool.false_eq_true, if_false]
      rw [hmsgs1, hrec]
      simp [chunkConcat, String.append_assoc]

/-- Helper: with the abort signal raised from the `k`-th check onwards and
no tool call among the first `k - i` chunks, the loop applies exactly the
first `k - i` chunks' texts before breaking out (or completing, when the
stream is shorter). -/
theorem streamLoop_abort (k : Nat) (botMsgId origText : String)
    (genResp : Except JsError (List GenPart)) (cs : List Chunk) :
    ∀ (i : Nat) (base : List Message) (bot : Message), bot.id = botMsgId →
      (∀ c ∈ cs.take (k - i), detectGenImage c = none) →
      (streamLoop (fun j => decide (k ≤ j)) botMsgId origText genResp cs i
          (base ++ [bot])).1 =
        base ++ [{ bot with text := bot.text ++ chunkConcat (cs.take (k - i)) }] := by
  induction cs with
  | nil =>
      intro i base bot hbot _
      simp [streamLoop, chunkConcat]
  | cons c rest ih =>
      intro i base bot hbot hng
      by_cases hki : k ≤ i
      · have hz : k - i = 0 := by omega
        simp [streamLoop, hki, hz, chunkConcat]
      · have htake : (c :: rest).take (k - i) = c :: rest.take (k - (i + 1)) := by
          have h1 : k - i = (k - (i + 1)) + 1 := by omega
          rw [h1]
          simp
        have hc : detectGenImage c = none := by
          apply hng
          rw [htake]
          simp
        have hmsgs1 :
            (if c.text = "" then base ++ [bot]
             else appendChunkText botMsgId (base ++ [bot]) c.text) =
              base ++ [{ bot with text := bot.text ++ c.text }] := by
          by_cases ht : c.text = ""
          · simp [ht]
          · rw [if_neg ht, appendChunkText_concat botMsgId base bot hbot]
        have hrec := ih (i + 1) base { bot with text := bot.text ++ c.text } hbot
          (fun c' h => by
            apply hng
            rw [htake]
            simp [h])
        simp only [streamLoop, decide_eq_true_eq, hki, if_false, hc]
        rw [hmsgs1, hrec, htake]
        simp [chunkConcat, String.append_assoc]

/-- Helper: once a `generate_image` call is detected, the loop breaks, so
its behaviour does not depend on the chunks past that call. -/
theorem streamLoop_toolcall_stops (botMsgId origText : String)
    (genResp : Except JsError (List GenPart)) (c : Chunk)
    (hc : (detectGenImage c).isSome = true) (pre : List Chunk) :
    ∀ (rest rest' : List Chunk) (i : Nat) (msgs : List Message),
      (∀ c' ∈ pre, detectGenImage c' = none) →
      streamLoop (fun _ => false) botMsgId origText genResp (pre ++ c :: rest) i msgs =
        streamLoop (fun _ => false) botMsgId origText genResp (pre ++ c :: rest') i msgs := by
  induction pre with
  | nil =>
      intro rest rest' i msgs _
      obtain ⟨call, hcall⟩ := Option.isSome_iff_exists.mp hc
      simp [streamLoop, hcall]
  | cons a pres ih =>
      intro rest rest' i msgs hpre
      have ha : detectGenImage a = none := hpre a (by simp)
      simp only [List.cons_append, streamLoop, ha]
      exact ih rest rest' (i + 1) _ (fun c' h => hpre c' (by simp [h]))

/-- Helper: the live list after the synchronous prefix of `sendMessage` is
the prior list extended with the user message and the placeholder. -/
theorem sendPrepare_messages (st : FullState) (text : String)
    (att : Option Attachment) (isImageGen : Bool) (now : Nat)
    (h : ¬(jsTrim text = "" ∧ att = none)) :
    (sendPrepare st text att isImageGen now).messages =
      st.messages ++ [mkUserMsg text att now, mkBotMsg isImageGen now] := by
  cases hc : st.currentSessionId with
  | none => simp [sendPrepare, h, hc]
  | some sid => simp [sendPrepare, h, hc]

/-- C4: a streaming turn whose abort signal is raised from the `k`-th chunk
check onwards finalizes the assistant message with exactly the
concatenation of the first `k` chunks' texts — nothing further appended,
nothing already appended removed — appends no error message, leaves the
assistant message's error flag unset, and ends with the loading flag
false. -/
theorem cancel_midstream (st : FullState) (text : String) (att : Option Attachment)
    (now k : Nat) (cs : List Chunk) (genResp : Except JsError (List GenPart))
    (hguard : ¬(jsTrim text = "" ∧ att = none))
    (hng : ∀ c ∈ cs.take k, detectGenImage c = none) :
    (runSendMessage st text att false now (fun j => decide (k ≤ j)) (.yields cs)
        genResp 0).messages =
      st.messages ++ [mkUserMsg text att now,
        { mkBotMsg false now with text := chunkConcat (cs.take k) }] ∧
    (runSendMessage st text att false now (fun j => decide (k ≤ j)) (.yields cs)
        genResp 0).isLoading = false ∧
    ({ mkBotMsg false now with text := chunkConcat (cs.take k) } : Message).isError
      = none := by
  have hloop := streamLoop_abort k (toString (now + 1)) text genResp cs 0
    (st.messages ++ [mkUserMsg text att now]) (mkBotMsg false now) rfl
    (by simpa using hng)
  simp only [Nat.sub_zero] at hloop
  refine ⟨?_, ?_, rfl⟩
  · simp only [runSendMessage, if_neg hguard, Bool.false_eq_true, if_false,
      runStreamPhase]
    rw [sendPrepare_messages st text att false now hguard]
    rw [show st.messages ++ [mkUserMsg text att now, mkBotMsg false now] =
      (st.messages ++ [mkUserMsg text att now]) ++ [mkBotMsg false now] by simp]
    rw [hloop]
    simp [mkBotMsg]
  · simp only [runSendMessage, if_neg hguard, Bool.false_eq_true, if_false,
      runStreamPhase]

/-- Witness for C4: cancelling the three-chunk stream after two chunks
keeps exactly the first two texts, with the loading flag false. -/
theorem cancel_midstream_witness :
    ¬(jsTrim "Hello" = "" ∧ (none : Option Attachment) = none) ∧
    (∀ c ∈ wChunks.take 2, detectGenImage c = none) ∧
    (runSendMessage freshState "Hello" none false 100 (fun j => decide (2 ≤ j))
        (.yields wChunks) (.ok []) 0).messages =
      freshState.messages ++ [mkUserMsg "Hello" none 100,
        { mkBotMsg false 100 with text := chunkConcat (wChunks.take 2) }] ∧
    (runSendMessage freshState "Hello" none false 100 (fun j => decide (2 ≤ j))
        (.yields wChunks) (.ok []) 0).isLoading = false := by
  have h := cancel_midstream freshState "Hello" none 100 2 wChunks (.ok [])
    (by decide) (by decide)
  exact ⟨by decide, by decide, h.1, h.2.1⟩

/-- C5: chunks delivered without cancellation are applied in arrival order,
none dropped or reordered, so the finalized assistant text is the ordered
concatenation of the chunk texts; and once a chunk whose first function
call is `generate_image` is detected, the turn's outcome no longer depends
on any later chunk — no subsequent chunk contributes text. -/
theorem stream_concat_spec (st : FullState) (text : String)
    (att : Option Attachment) (now : Nat) (genResp : Except JsError (List GenPart))
    (hguard : ¬(jsTrim text = "" ∧ att = none)) :
    (∀ cs : List Chunk, (∀ c ∈ cs, detectGenImage c = none) →
      (runSendMessage st text att false now (fun _ => false) (.yields cs)
          genResp 0).messages =
        st.messages ++ [mkUserMsg text att now,
          { mkBotMsg false now with text := chunkConcat cs }]) ∧
    (∀ (pre : List Chunk) (c : Chunk) (rest rest' : List Chunk),
      (∀ c' ∈ pre, detectGenImage c' = none) → (detectGenImage c).isSome = true →
      runSendMessage st text att false now (fun _ => false)
          (.yields (pre ++ c :: rest)) genResp 0 =
        runSendMessage st text att false now (fun _ => false)
          (.yields (pre ++ c :: rest')) genResp 0) := by
  constructor
  · intro cs hng
    have hloop := streamLoop_complete (toString (now + 1)) text genResp cs 0
      (st.messages ++ [mkUserMsg text att now]) (mkBotMsg false now) rfl hng
    simp only [runSendMessage, if_neg hguard, Bool.false_eq_true, if_false,
      runStreamPhase]
    rw [sendPrepare_messages st text att false now hguard]
    rw [show st.messages ++ [mkUserMsg text att now, mkBotMsg false now] =
      (st.messages ++ [mkUserMsg text att now]) ++ [mkBotMsg false now] by simp]
    rw [hloop]
    simp [mkBotMsg]
  · intro pre c rest rest' hpre hc
    simp only [runSendMessage, if_neg hguard, Bool.false_eq_true, if_false,
      runStreamPhase]
    rw [streamLoop_toolcall_stops (toString (now + 1)) text genResp c hc pre rest rest'
      0 (sendPrepare st text att false now).messages hpre]

/-- Witness for C5: the three-chunk stream concatenates to the full text,
and a run whose second chunk carries a `generate_image` call is unchanged
when the chunks after the call are replaced. -/
theorem stream_concat_spec_witness :
    ¬(jsTrim "Hello" = "" ∧ (none : Option Attachment) = none) ∧
    (∀ c ∈ wChunks, detectGenImage c = none) ∧
    (runSendMessage freshState "Hello" none false 100 (fun _ => false)
        (.yields wChunks) (.ok []) 0).messages =
      freshState.messages ++ [mkUserMsg "Hello" none 100,
        { mkBotMsg false 100 with text := chunkConcat wChunks }] ∧
    ((detectGenImage wToolChunk).isSome = true ∧
      runSendMessage freshState "Hello" none false 100 (fun _ => false)
          (.yields [{ text := "Hi" }, wToolChunk]) (.ok []) 0 =
        runSendMessage freshState "Hello" none false 100 (fun _ => false)
          (.yields [{ text := "Hi" }, wToolChunk, { text := "dropped" }]) (.ok []) 0) := by
  have h := stream_concat_spec freshState "Hello" none 100 (.ok []) (by decide)
  refine ⟨by decide, by decide, h.1 wChunks (by decide), by decide, ?_⟩
  exact h.2 [{ text := "Hi" }] wToolChunk [] [{ text := "dropped" }] (by decide) (by decide)

/-- C8: an in-flight streaming turn that fails with a thrown error (not a
cancellation) appends a fresh assistant message flagged as an error whose
text is the quota-exhaustion retry-later message exactly when the failure
carries a 429 status or code or a payload mentioning 429,
RESOURCE_EXHAUSTED or quota, and the generic apology/retry message
otherwise; nothing is thrown further (the run is a total function into a
defined state) and the loading flag resolves to false. -/
theorem friendly_error_spec (st : FullState) (text : String) (att : Option Attachment)
    (now : Nat) (cs : List Chunk) (e : JsError)
    (genResp : Except JsError (List GenPart)) (errNow : Nat)
    (hguard : ¬(jsTrim text = "" ∧ att = none))
    (hng : ∀ c ∈ cs, detectGenImage c = none)
    (hab : e.name ≠ "AbortError") :
    (runSendMessage st text att false now (fun _ => false) (.fails cs e)
        genResp errNow).messages =
      st.messages ++ [mkUserMsg text att now,
        { mkBotMsg false now with text := chunkConcat cs },
        { id := toString errNow, sender := .model, text := getFriendlyErrorMessage e,
          timestamp := errNow, isError := some true }] ∧
    (runSendMessage st text att false now (fun _ => false) (.fails cs e)
        genResp errNow).isLoading = false ∧
    ((e.status = some 429 ∨ e.code = some 429 ∨ strContains e.errString "429" = true ∨
        strContains e.errString "RESOURCE_EXHAUSTED" = true ∨
        strContains e.errString "quota" = true) →
      getFriendlyErrorMessage e = quotaMsg) ∧
    (¬(e.status = some 429 ∨ e.code = some 429 ∨ strContains e.errString "429" = true ∨
        strContains e.errString "RESOURCE_EXHAUSTED" = true ∨
        strContains e.errString "quota" = true) →
      getFriendlyErrorMessage e = genericMsg) := by
  have hloop := streamLoop_complete (toString (now + 1)) text genResp cs 0
    (st.messages ++ [mkUserMsg text att now]) (mkBotMsg false now) rfl hng
  refine ⟨?_, ?_, fun h => by simp [getFriendlyErrorMessage, h],
    fun h => by simp [getFriendlyErrorMessage, h]⟩
  · simp only [runSendMessage, if_neg hguard, Bool.false_eq_true, if_false,
      runStreamPhase]
    rw [sendPrepare_messages st text att false now hguard]
    rw [show st.messages ++ [mkUserMsg text att now, mkBotMsg false now] =
      (st.messages ++ [mkUserMsg text att now]) ++ [mkBotMsg false now] by simp]
    rw [hloop]
    simp [hab, mkBotMsg]
  · simp only [runSendMessage, if_neg hguard, Bool.false_eq_true, if_false,
      runStreamPhase]
    rw [sendPrepare_messages st text att false now hguard]
    rw [show st.messages ++ [mkUserMsg text att now, mkBotMsg false now] =
      (st.messages ++ [mkUserMsg text att now]) ++ [mkBotMsg false now] by simp]
    rw [hloop]
    simp [hab, mkBotMsg]

/-- Witness for C8: the 429-status failure appends the quota message, a
generic failure appends the apology message, both flagged as errors with
the loading flag false. -/
theorem friendly_error_spec_witness :
    ¬(jsTrim "Hello" = "" ∧ (none : Option Attachment) = none) ∧
    (∀ c ∈ wChunks, detectGenImage c = none) ∧
    wErr429.name ≠ "AbortError" ∧
    (wErr429.status = some 429 ∨ wErr429.code = some 429 ∨
      strContains wErr429.errString "429" = true ∨
      strContains wErr429.errString "RESOURCE_EXHAUSTED" = true ∨
      strContains wErr429.errString "quota" = true) ∧
    getFriendlyErrorMessage wErr429 = quotaMsg ∧
    getFriendlyErrorMessage wErrOther = genericMsg ∧
    (runSendMessage freshState "Hello" none false 100 (fun _ => false)
        (.fails wChunks wErr429) (.ok []) 999).messages =
      freshState.messages ++ [mkUserMsg "Hello" none 100,
        { mkBotMsg false 100 with text := chunkConcat wChunks },
        { id := toString 999, sender := .model, text := getFriendlyErrorMessage wErr429,
          timestamp := 999, isError := some true }] ∧
    (runSendMessage freshState "Hello" none false 100 (fun _ => false)
        (.fails wChunks wErr429) (.ok []) 999).isLoading = false := by
  have h := friendly_error_spec freshState "Hello" none 100 wChunks wErr429 (.ok []) 999
    (by decide) (by decide) (by decide)
  have h2 := friendly_error_spec freshState "Hello" none 100 wChunks wErrOther (.ok []) 999
    (by decide) (by decide) (by decide)
  exact ⟨by decide, by decide, by decide, by decide, h.2.2.1 (by decide),
    h2.2.2.2 (by decide), h.1, h.2.1⟩
